import Mathlib

/-!
Verification development for the NovelpiaScraper repository
(src/NovelpiaScraper.py, src/NovelpiaScraperBeta.py, src/MetadataAnalysis.py).

The Python sources are shallowly embedded below: pure logic becomes Lean
functions, the cooperative event loops become folds over an explicit
completion order, file contents become lists, and machine effects (network
responses, random draws, on-disk sizes) become explicit parameters.
-/

namespace NovelpiaScraper

/-! ## Fetch Engine (fetch_page, both scrapers, identical ladder)

`fetch_page` (NovelpiaScraperBeta.py lines 96-146, NovelpiaScraper.py lines
116-178) sleeps a uniform random delay, draws one random User-Agent, then
makes up to three GET attempts: a blank body (empty or all-whitespace) leads
to a fixed 5 second sleep and a second attempt, a second blank body leads to a
24 hour sleep and a final attempt, and a third blank body raises
IPBanException.  A transport error on any attempt returns None immediately.
-/

/-- Result of one HTTP attempt: a successful response body, or a transport
error (aiohttp.ClientError / asyncio.TimeoutError). -/
inductive AttemptResult
  | htmlOk (html : String)
  | netErr
deriving DecidableEq, Repr

/-- The kind of sleep performed immediately before an attempt:
`random.uniform(min_delay, max_delay)` versus a fixed `asyncio.sleep(secs)`. -/
inductive SleepKind
  | uniformDelay
  | fixedSleep (secs : Nat)
deriving DecidableEq, Repr

/-- One HTTP attempt as performed by fetch_page: the User-Agent value sent,
the sleep that preceded the attempt, and the request timeout in seconds. -/
structure AttemptRec where
  ua : Nat
  sleepBefore : SleepKind
  timeoutSecs : Nat
deriving DecidableEq, Repr

/-- Python `html and html.strip()` is falsy exactly when the body is empty or
all whitespace. -/
def isBlankHtml (s : String) : Bool := s.data.all Char.isWhitespace

/-- Overall outcome of fetch_page for one novel id. -/
inductive FetchOutcome
  | success (html : String)
  | networkError
  | banSuspected
deriving DecidableEq, Repr

/-- Shallow embedding of `fetch_page` (Beta lines 96-146; legacy lines
116-178).  `uaDraw` is the one `random.choice(USER_AGENTS)` made at the start
of the call; `resp n` is the body delivered by the (n+1)-th GET.  Returns the
outcome together with the trace of HTTP attempts actually performed. -/
def fetch_page (uaDraw : Nat) (resp : Nat → AttemptResult) :
    FetchOutcome × List AttemptRec :=
  let a1 : AttemptRec := ⟨uaDraw, .uniformDelay, 15⟩
  match resp 0 with
  | .netErr => (.networkError, [a1])
  | .htmlOk h =>
    if !isBlankHtml h then (.success h, [a1]) else
    let a2 : AttemptRec := ⟨uaDraw, .fixedSleep 5, 15⟩
    match resp 1 with
    | .netErr => (.networkError, [a1, a2])
    | .htmlOk h2 =>
      if !isBlankHtml h2 then (.success h2, [a1, a2]) else
      let a3 : AttemptRec := ⟨uaDraw, .fixedSleep (24 * 60 * 60), 30⟩
      match resp 2 with
      | .netErr => (.networkError, [a1, a2, a3])
      | .htmlOk h3 =>
        if !isBlankHtml h3 then (.success h3, [a1, a2, a3])
        else (.banSuspected, [a1, a2, a3])

/-! ## Asset Downloader (download_cover)

`download_cover` (Beta lines 148-176, legacy lines 180-230) checks the shared
byte counter against the budget before any network traffic, re-checks
`counter + len(content) > budget` after receiving the body, and on acceptance
writes the (possibly re-encoded) image and adds the on-disk file size to the
counter.  `fetch = some contentLen` models a successful GET whose body has
`contentLen` bytes; `writtenSize contentLen` models
`os.path.getsize(local_path)` after `img.save(...)` or the raw fallback
write. -/

/-- The value returned by download_cover: the saved local path, the string
"SKIPPED_LIMIT", or a download-failure marker. -/
inductive CoverStatus
  | savedAt
  | skippedLimit
  | downloadFailed
deriving DecidableEq, Repr

/-- Observable effects of one download_cover call. -/
structure CoverResult where
  status : CoverStatus
  counter : Nat
  didNetwork : Bool
  wroteFile : Bool
deriving DecidableEq, Repr

/-- Shallow embedding of `download_cover` (Beta lines 148-176; legacy lines
180-230, quota logic identical). -/
def download_cover (counter maxStorage : Nat) (fetch : Option Nat)
    (writtenSize : Nat → Nat) : CoverResult :=
  if maxStorage ≤ counter then ⟨.skippedLimit, counter, false, false⟩
  else
    match fetch with
    | none => ⟨.downloadFailed, counter, true, false⟩
    | some contentLen =>
      if maxStorage < counter + contentLen then ⟨.skippedLimit, counter, true, false⟩
      else ⟨.savedAt, counter + writtenSize contentLen, true, true⟩

/-- A sequence of download_cover calls sharing the counter, as issued during
one run (sequentialized; each element carries that call's GET outcome and
on-disk-size function). -/
def run_covers (maxStorage : Nat) :
    Nat → List (Option Nat × (Nat → Nat)) → Nat
  | counter, [] => counter
  | counter, d :: ds =>
      run_covers maxStorage (download_cover counter maxStorage d.1 d.2).counter ds

/-! ## Page classification outcome of one whole task (process_novel)

For the orchestrator loops only the observable result of a completed
`process_novel` task matters: whether it wrote a data line (`data_written`),
reported the boundary (`latest_novel_reached`), or raised IPBanException. -/

/-- The observable result of one completed per-id task. -/
inductive TaskResult
  | found            -- returned with data_written = True (line already written)
  | skipped          -- returned with data_written = False (network error, no data, forbidden, …)
  | boundaryReached  -- returned status 'latest_novel_reached'
  | ipBan            -- raised IPBanException out of fetch_page
deriving DecidableEq, Repr

/-! ## Crawl Orchestrator, beta version (run_normal_scrape)

`run_normal_scrape` (NovelpiaScraperBeta.py lines 419-489) consumes task
completions via `asyncio.as_completed`.  We model one run as a fold over the
completion order, a list of `(novel id, TaskResult)` pairs.  The single
cooperative scheduler makes each loop iteration atomic; a task cancelled at a
boundary is one that had not yet completed when the boundary was consumed,
and it later surfaces as CancelledError (counted for progress, nothing else).
A worker writes its output line inside process_novel, i.e. at its completion,
before the orchestrator sees the result. -/

/-- Orchestrator state for the beta run_normal_scrape loop. -/
structure BetaState where
  boundary : Option Nat := none   -- latest_known_novel_id (none = float inf)
  written : List Nat := []        -- ids whose data line is in the output file
  counted : List Nat := []        -- ids contributing to found_count
  completed : Nat := 0            -- tasks_completed
  aborted : Bool := false         -- broke out of the loop on IPBanException
deriving DecidableEq, Repr

/-- `int(novel_id) < latest_known_novel_id[0]` (with none = infinity). -/
def ltBoundary : Option Nat → Nat → Bool
  | none, _ => true
  | some l, id => decide (id < l)

/-- A task is cancelled at the lowest seen boundary exactly when its id is
greater than it (`int(task_id) > current_latest`). -/
def cancelledAt : Option Nat → Nat → Bool
  | none, _ => false
  | some l, id => decide (l < id)

/-- One iteration of the beta completion loop (Beta lines 459-485). -/
def betaStep (s : BetaState) (t : Nat × TaskResult) : BetaState :=
  if s.aborted then s
  else if cancelledAt s.boundary t.1 then
    { s with completed := s.completed + 1 }     -- CancelledError branch
  else
    match t.2 with
    | .ipBan => { s with aborted := true }      -- cancel all tasks and break
    | .boundaryReached =>
        let b := if ltBoundary s.boundary t.1 then some t.1 else s.boundary
        { s with boundary := b, completed := s.completed + 1 }
    | .found =>
        { s with written := s.written ++ [t.1],
                 completed := s.completed + 1,
                 counted := if ltBoundary s.boundary t.1 then s.counted ++ [t.1]
                            else s.counted }
    | .skipped => { s with completed := s.completed + 1 }

/-- Running the beta completion loop from a given state. -/
def runBetaFrom (s : BetaState) (order : List (Nat × TaskResult)) : BetaState :=
  order.foldl betaStep s

/-- Shallow embedding of the beta `run_normal_scrape` completion loop over a
given completion order. -/
def run_normal_scrape (order : List (Nat × TaskResult)) : BetaState :=
  runBetaFrom {} order

/-- `{ s with aborted := true }`, the state after breaking on a ban. -/
def markAborted (s : BetaState) : BetaState := { s with aborted := true }

/-! ## Crawl Orchestrator, legacy version (main of NovelpiaScraper.py)

The legacy completion loop (NovelpiaScraper.py lines 692-724) catches
IPBanException and `latest_novel_reached` but deliberately continues
consuming the remaining tasks (the cancel/break lines are commented out);
counts are not gated by any boundary comparison. -/

/-- Orchestrator state for the legacy main loop. -/
structure MainState where
  written : List Nat := []
  counted : List Nat := []
  completed : Nat := 0
deriving DecidableEq, Repr

/-- One iteration of the legacy completion loop (legacy lines 693-724). -/
def legacyStep (s : MainState) (t : Nat × TaskResult) : MainState :=
  match t.2 with
  | .ipBan => s                                           -- logged; continue
  | .boundaryReached => { s with completed := s.completed + 1 }  -- logged; continue
  | .found => { s with written := s.written ++ [t.1],
                       counted := s.counted ++ [t.1],
                       completed := s.completed + 1 }
  | .skipped => { s with completed := s.completed + 1 }

/-- Shallow embedding of the legacy `main` completion loop over a given
completion order. -/
def legacy_main_loop (order : List (Nat × TaskResult)) : MainState :=
  order.foldl legacyStep {}

/-! ## Record Sink: output-file lines, IndexedSet and candidate building

A line of the output file either yields a novel id (a well-formed JSONL
record with an 'id' field, or a titles line matching the id regex) or is
malformed and skipped. -/

/-- One line of an existing output file. -/
inductive Line
  | wellFormed (id : Nat)
  | malformed
deriving DecidableEq, Repr

/-- The ids of the well-formed lines of a file, in file order; this is the
content of `indexed_ids` built in resume/append mode (Beta lines 428-437,
legacy lines 626-642). -/
def indexedIdsOf (lines : List Line) : List Nat :=
  lines.filterMap fun l => match l with
    | .wellFormed id => some id
    | .malformed => none

/-- `tasks_to_create` (Beta line 442-443): the ids of the requested range
with already-indexed and forbidden ids removed. -/
def tasksToCreate (startId endId : Nat) (indexed forbidden : List Nat) : List Nat :=
  (((List.range (endId + 1 - startId)).map (· + startId)).filter
    fun i => decide (i ∉ indexed) && decide (i ∉ forbidden))

/-! ## Resume-point selection (get_last_scraped_id, Beta lines 290-309)

Folds over the file lines keeping the largest parsed id, starting from -1;
malformed lines leave the accumulator unchanged; a missing file gives -1.
`configure_scrape` (Beta lines 362-371) offers to continue from last + 1
exactly when last ≠ -1. -/

/-- The loop body of get_last_scraped_id (Beta lines 296-306): keep the
larger of the accumulator and the line's parsed id; a malformed line is
skipped by the except clause. -/
def maxIdStep (last : Int) (l : Line) : Int :=
  match l with
  | .wellFormed id => if (id : Int) > last then (id : Int) else last
  | .malformed => last

/-- Shallow embedding of `get_last_scraped_id`; `none` is a missing file. -/
def get_last_scraped_id : Option (List Line) → Int
  | none => -1
  | some lines => lines.foldl maxIdStep (-1)

/-- The start id offered by configure_scrape's continue branch (Beta lines
364-367): `last_id + 1` when a previous session was found, none otherwise. -/
def configureContinueStart (file : Option (List Line)) : Option Int :=
  if get_last_scraped_id file ≠ -1 then some (get_last_scraped_id file + 1)
  else none

/-! ## Forbidden-id bookkeeping inside process_novel

Beta lines 244-251 (legacy lines 377-387 are the same logic): when the parse
classifies the page as deleted or access-denied and scrape_skipped_novels is
off, the id is added to the in-memory set and appended to forbidden.txt,
unless already present; an unparseable page (parse returned None) changes
nothing. -/

/-- The value of `parse_novel_data` as it matters to process_novel. -/
inductive ParseResult
  | latestNovelReached
  | deletedNovel
  | accessDeniedNovel
  | validNovel
  | noData            -- parse_novel_data returned None
deriving DecidableEq, Repr

/-- Status strings returned by process_novel. -/
inductive ProcessStatus
  | latestNovelReached
  | skippedForbidden
  | skippedNoData
  | deletedNovel
  | accessDeniedNovel
  | found
deriving DecidableEq, Repr

/-- Observable effects of the classification part of one process_novel call. -/
structure ProcessOutcome where
  status : ProcessStatus
  forbiddenSet : List String
  forbiddenFileAppends : List String
  dataWritten : Bool
deriving DecidableEq, Repr

/-- Shallow embedding of process_novel after fetch and parse (Beta lines
237-288, restricted to classification, forbidden bookkeeping and the
data-write flag; cover handling elided).  `scrapeSkipped` is
config['scrape_skipped_novels'], `scrapeMetadata` is
config['scrape_metadata'] with an open file handle. -/
def process_novel (id : String) (parse : ParseResult)
    (scrapeSkipped scrapeMetadata : Bool) (forbidden : List String) :
    ProcessOutcome :=
  match parse with
  | .latestNovelReached => ⟨.latestNovelReached, forbidden, [], false⟩
  | .noData => ⟨.skippedNoData, forbidden, [], false⟩
  | .deletedNovel =>
      if !scrapeSkipped then
        if id ∈ forbidden then ⟨.skippedForbidden, forbidden, [], false⟩
        else ⟨.skippedForbidden, forbidden ++ [id], [id], false⟩
      else ⟨.deletedNovel, forbidden, [], scrapeMetadata⟩
  | .accessDeniedNovel =>
      if !scrapeSkipped then
        if id ∈ forbidden then ⟨.skippedForbidden, forbidden, [], false⟩
        else ⟨.skippedForbidden, forbidden ++ [id], [id], false⟩
      else ⟨.accessDeniedNovel, forbidden, [], scrapeMetadata⟩
  | .validNovel => ⟨.found, forbidden, [], scrapeMetadata⟩

/-! ## Atomic rescrape (run_rescrape, Beta lines 491-540)

All writes go to `output_file + '.tmp'`; the for-else sets `success` only
when the completion loop finishes without breaking; the finally block does
`os.replace(temp, original)` on success and `os.remove(temp)` otherwise.
File contents are abstracted as the list of record ids written. -/

/-- One event consumed by the rescrape completion loop: a task completion, or
an unhandled fault escaping the loop body. -/
inductive RescrapeEvent
  | task (id : Nat) (res : TaskResult)
  | fault
deriving DecidableEq, Repr

/-- The rescrape loop: returns the lines accumulated in the temp file and the
`success` flag (for-else: true exactly when no break / no fault). -/
def rescrapeLoop : List RescrapeEvent → List Nat × Bool
  | [] => ([], true)
  | .fault :: _ => ([], false)
  | .task _ .ipBan :: _ => ([], false)
  | .task id .found :: es =>
      let r := rescrapeLoop es
      (id :: r.1, r.2)
  | .task _ _ :: es => rescrapeLoop es

/-- No ban and no fault anywhere in the event stream. -/
def noInterrupt (events : List RescrapeEvent) : Bool :=
  events.all fun e => match e with
    | .fault => false
    | .task _ .ipBan => false
    | _ => true

/-- Final on-disk situation after run_rescrape. -/
structure RescrapeResult where
  original : List Nat   -- contents of config['output_file'] after the run
  tempRemains : Bool    -- whether the .tmp file still exists
  replaced : Bool       -- whether os.replace(temp, original) ran
deriving DecidableEq, Repr

/-- Shallow embedding of `run_rescrape` (Beta lines 491-540): early return
when there is nothing to rescrape, otherwise run the loop against the temp
file and finalize in the finally block. -/
def run_rescrape (orig : List Nat) (idsToProcess : List Nat)
    (events : List RescrapeEvent) : RescrapeResult :=
  if idsToProcess.isEmpty then ⟨orig, false, false⟩
  else
    let r := rescrapeLoop events
    if r.2 then ⟨r.1, false, true⟩      -- os.replace(temp_output_file, output_file)
    else ⟨orig, false, false⟩           -- os.remove(temp_output_file)

/-! ## Offline analytics (MetadataAnalysis.py, calculate_average_chapters)

A parsed JSONL record is a key/value list (Python dict with unique keys).
The filter chain of calculate_average_chapters (lines 50-102) is embedded
per record; a record contributes to the average and to
filtered_records_info exactly when every filter passes and it carries a
numeric 'chapter_count'. -/

/-- JSON values as they occur in these records. -/
inductive JValue
  | jnum (n : Int)
  | jstr (s : String)
  | jbool (b : Bool)
  | jnull
  | jarr (items : List String)
deriving DecidableEq, Repr

/-- A JSON object: key/value pairs (keys unique, as in a Python dict). -/
def JRecord := List (String × JValue)

/-- `record[k]` when present. -/
def jlookup (r : JRecord) (k : String) : Option JValue :=
  (r.find? fun p => p.1 == k).map (·.2)

/-- `k in record and isinstance(record[k], (int, float))`, together with the
numeric value (Python bools are ints, so JSON booleans count as numeric). -/
def jnumField (r : JRecord) (k : String) : Option Int :=
  match jlookup r k with
  | some (.jnum n) => some n
  | some (.jbool b) => some (if b then 1 else 0)
  | _ => none

/-- `record.get('tags', [])` coerced to a list (lines 50-52). -/
def jtags (r : JRecord) : List String :=
  match jlookup r "tags" with
  | some (.jarr ts) => ts
  | _ => []

/-- Python truthiness of `record.get('is_adult', False)` (lines 86-91). -/
def jadult (r : JRecord) : Bool :=
  match jlookup r "is_adult" with
  | some (.jbool b) => b
  | some (.jnum n) => decide (n ≠ 0)
  | some (.jstr s) => !s.isEmpty
  | some (.jarr l) => !l.isEmpty
  | some .jnull => false
  | none => false

/-- The filter arguments of calculate_average_chapters. -/
structure FilterParams where
  required_tags : List String
  optional_tags : List String
  only_completed : Bool
  min_likes : Int
  min_chapters : Int
  include_adult : String
deriving Repr

/-- The chain of `continue` guards in calculate_average_chapters
(MetadataAnalysis.py lines 54-91): true when the record survives every
filter. -/
def passesFilters (p : FilterParams) (r : JRecord) : Bool :=
  (p.required_tags.all fun t => t ∈ jtags r) &&
  (p.optional_tags.isEmpty || p.optional_tags.any fun t => t ∈ jtags r) &&
  (!p.only_completed ||
    match jlookup r "publication_status" with
    | some (.jstr s) => s == "완결"
    | _ => false) &&
  (match jnumField r "total_likes" with
   | some n => decide (p.min_likes ≤ n)
   | none => decide (p.min_likes ≤ 0)) &&
  (match jnumField r "chapter_count" with
   | some n => decide (p.min_chapters ≤ n)
   | none => decide (p.min_chapters ≤ 0)) &&
  (if p.include_adult == "no" then !jadult r
   else if p.include_adult == "yes" then jadult r
   else true)

/-- A record enters the average (and filtered_records_info, when it has id
and title) exactly when all filters pass and 'chapter_count' is numeric
(lines 94-102). -/
def includedInAverage (p : FilterParams) (r : JRecord) : Bool :=
  passesFilters p r && (jnumField r "chapter_count").isSome

/-- The records of a file that contribute to the average; `none` entries are
lines whose json.loads failed (lines 104-105). -/
def filteredRecords (p : FilterParams) (lines : List (Option JRecord)) :
    List JRecord :=
  (lines.filterMap id).filter (includedInAverage p)

/-! ## The record dict built by the beta scraper (parse_novel_data)

NovelpiaScraperBeta.py lines 220-229 assemble the metadata record that is
serialized to the JSONL output.  The extracted field values are parameters;
the fixed key set is what matters: likes are stored under 'like_count'. -/

/-- Helper: optional string field emitted as null when absent. -/
def joptStr : Option String → JValue
  | some s => .jstr s
  | none => .jnull

/-- Helper: optional numeric field emitted as null when absent. -/
def joptNum : Option Int → JValue
  | some n => .jnum n
  | none => .jnull

/-- Shallow embedding of the dict literal returned by `parse_novel_data`
(Beta lines 220-229) for a parseable novel page. -/
def parse_novel_data (id title : String) (synopsis author : Option String)
    (tags : List String) (isAdult : Bool) (pubStatus : String)
    (coverUrl coverMime : Option String) (likeCount chapterCount : Option Int) :
    JRecord :=
  [("id", .jstr id), ("title", .jstr title),
   ("synopsis", joptStr synopsis), ("author", joptStr author),
   ("tags", .jarr tags), ("is_adult", .jbool isAdult),
   ("publication_status", .jstr pubStatus),
   ("cover_url", joptStr coverUrl), ("cover_mime_type", joptStr coverMime),
   ("cover_local_path", .jnull),
   ("like_count", joptNum likeCount), ("chapter_count", joptNum chapterCount)]

/-! ## Helper lemmas -/

/-- An accepted download raises the counter by the on-disk size only; the
counter stays within budget whenever the written file is no larger than the
received body. -/
theorem download_cover_counter_le (counter maxStorage : Nat) (fetch : Option Nat)
    (writtenSize : Nat → Nat) (hw : ∀ n, writtenSize n ≤ n)
    (hc : counter ≤ maxStorage) :
    (download_cover counter maxStorage fetch writtenSize).counter ≤ maxStorage := by
  cases fetch with
  | none =>
    unfold download_cover
    split
    · exact hc
    · exact hc
  | some contentLen =>
    unfold download_cover
    split
    · exact hc
    · simp only
      split
      · exact hc
      · have h1 := hw contentLen
        simp only [CoverResult.counter]
        omega

/-- Sequentialized cover downloads keep the shared counter within budget as
long as every written file is no larger than its received body. -/
theorem run_covers_le (maxStorage : Nat) :
    ∀ (ds : List (Option Nat × (Nat → Nat))) (counter : Nat),
      (∀ d ∈ ds, ∀ n, d.2 n ≤ n) → counter ≤ maxStorage →
      run_covers maxStorage counter ds ≤ maxStorage
  | [], _, _, hc => hc
  | d :: ds, counter, hd, hc =>
      run_covers_le maxStorage ds _
        (fun x hx => hd x (List.mem_cons_of_mem d hx))
        (download_cover_counter_le counter maxStorage d.1 d.2
          (hd d (List.mem_cons_self d ds)) hc)

/-! ## Claims -/

/-- C1 (corrected, counterexample): the claim that no single accepted asset
write causes the counter to exceed the budget is false: with budget 10 bytes
and a 5-byte received body whose re-encoded on-disk file is 20 bytes,
download_cover accepts the write and leaves the counter at 20 > 10 (the
pre-write check compares the received length, but the counter is incremented
by `os.path.getsize` of the written file). -/
theorem C1_quota_counterexample :
    (download_cover 0 10 (some 5) fun _ => 20).wroteFile = true ∧
    10 < (download_cover 0 10 (some 5) fun _ => 20).counter := by
  refine ⟨rfl, ?_⟩
  show (10 : Nat) < 20
  norm_num

/-- C1 (amended): download_cover returns SKIPPED_LIMIT with no network I/O
when the counter is already at or over budget; it returns SKIPPED_LIMIT
without writing when the counter plus the received content length would
exceed the budget; and the counter never exceeds the budget across a run of
sequential downloads provided each written file is no larger than its
received content (the code compares the received length but adds the on-disk
size). -/
theorem C1_quota_amended (counter maxStorage : Nat) (fetch : Option Nat)
    (writtenSize : Nat → Nat) :
    (maxStorage ≤ counter →
      (download_cover counter maxStorage fetch writtenSize).status = .skippedLimit ∧
      (download_cover counter maxStorage fetch writtenSize).didNetwork = false ∧
      (download_cover counter maxStorage fetch writtenSize).counter = counter) ∧
    (∀ contentLen, fetch = some contentLen → maxStorage < counter + contentLen →
      (download_cover counter maxStorage fetch writtenSize).status = .skippedLimit ∧
      (download_cover counter maxStorage fetch writtenSize).wroteFile = false ∧
      (download_cover counter maxStorage fetch writtenSize).counter = counter) ∧
    ((∀ n, writtenSize n ≤ n) → counter ≤ maxStorage →
      (download_cover counter maxStorage fetch writtenSize).counter ≤ maxStorage) ∧
    (∀ ds : List (Option Nat × (Nat → Nat)),
      (∀ d ∈ ds, ∀ n, d.2 n ≤ n) → counter ≤ maxStorage →
      run_covers maxStorage counter ds ≤ maxStorage) := by
  refine ⟨?_, ?_, ?_, ?_⟩
  · intro h
    unfold download_cover
    rw [if_pos h]
    exact ⟨rfl, rfl, rfl⟩
  · intro contentLen hf hover
    subst hf
    unfold download_cover
    split
    · exact ⟨rfl, rfl, rfl⟩
    · simp only
      rw [if_pos hover]
      exact ⟨rfl, rfl, rfl⟩
  · exact fun hw hc => download_cover_counter_le counter maxStorage fetch writtenSize hw hc
  · exact fun ds hd hc => run_covers_le maxStorage ds counter hd hc

/-- Witness for C1_quota_amended at concrete inputs. -/
theorem C1_quota_witness :
    (10 : Nat) ≤ 12 ∧
    (download_cover 12 10 (some 3) fun n => n).status = .skippedLimit ∧
    (download_cover 12 10 (some 3) fun n => n).didNetwork = false ∧
    (download_cover 12 10 (some 3) fun n => n).counter = 12 := by
  refine ⟨by norm_num, ?_⟩
  exact (C1_quota_amended 12 10 (some 3) fun n => n).1 (by norm_num)

/-- C2 (confirmed): when every attempt delivers a blank successful body,
fetch_page makes exactly 3 HTTP attempts — the first after the uniform
random delay, the second after a fixed 5-second sleep, the third after the
24-hour cooldown — and terminates in the ban-suspected outcome; and whenever
an attempt delivers a non-blank body (all earlier ones blank), fetch_page
succeeds with exactly that content. -/
theorem C2_fetch_retry_ladder (uaDraw : Nat) (resp : Nat → AttemptResult) :
    ((∀ n, n < 3 → ∃ h, resp n = .htmlOk h ∧ isBlankHtml h = true) →
      (fetch_page uaDraw resp).1 = .banSuspected ∧
      ((fetch_page uaDraw resp).2.map AttemptRec.sleepBefore) =
        [.uniformDelay, .fixedSleep 5, .fixedSleep (24 * 60 * 60)]) ∧
    (∀ j h, j < 3 → resp j = .htmlOk h → isBlankHtml h = false →
      (∀ n, n < j → ∃ h2, resp n = .htmlOk h2 ∧ isBlankHtml h2 = true) →
      (fetch_page uaDraw resp).1 = .success h) := by
  constructor
  · intro hb
    obtain ⟨h0, e0, b0⟩ := hb 0 (by norm_num)
    obtain ⟨h1, e1, b1⟩ := hb 1 (by norm_num)
    obtain ⟨h2, e2, b2⟩ := hb 2 (by norm_num)
    simp [fetch_page, e0, e1, e2, b0, b1, b2]
  · intro j h hj ej bj hprev
    interval_cases j
    · simp [fetch_page, ej, bj]
    · obtain ⟨h0, e0, b0⟩ := hprev 0 (by norm_num)
      simp [fetch_page, e0, b0, ej, bj]
    · obtain ⟨h0, e0, b0⟩ := hprev 0 (by norm_num)
      obtain ⟨h1, e1, b1⟩ := hprev 1 (by norm_num)
      simp [fetch_page, e0, b0, e1, b1, ej, bj]

/-- Witness for C2_fetch_retry_ladder: an always-blank transport yields
banSuspected after the three-attempt ladder, and a first non-blank body is
returned as success. -/
theorem C2_fetch_retry_witness :
    ((fetch_page 0 fun _ => .htmlOk "").1 = .banSuspected ∧
      ((fetch_page 0 fun _ => .htmlOk "").2.map AttemptRec.sleepBefore) =
        [.uniformDelay, .fixedSleep 5, .fixedSleep (24 * 60 * 60)]) ∧
    (fetch_page 0 fun _ => .htmlOk "x").1 = .success "x" := by
  constructor
  · exact (C2_fetch_retry_ladder 0 fun _ => .htmlOk "").1
      (fun n _ => ⟨"", rfl, by decide⟩)
  · exact (C2_fetch_retry_ladder 0 fun _ => .htmlOk "x").2 0 "x" (by norm_num) rfl
      (by decide) (fun n hn => absurd hn (Nat.not_lt_zero n))

/-- C6 (corrected, counterexample): on an all-blank transport the trace shows
that the sleep preceding the second attempt is the fixed 5-second retry sleep
— not a fresh uniform draw from [min_delay, max_delay] — and all three
attempts carry the single User-Agent value drawn at the start of the call,
refuting the claim that every attempt is preceded by a fresh uniform delay
and uses a freshly drawn identity header. -/
theorem C6_identity_counterexample :
    ((fetch_page 7 fun _ => .htmlOk "").2.map AttemptRec.sleepBefore) =
      [.uniformDelay, .fixedSleep 5, .fixedSleep 86400] ∧
    SleepKind.fixedSleep 5 ≠ SleepKind.uniformDelay ∧
    ((fetch_page 7 fun _ => .htmlOk "").2.map AttemptRec.ua) = [7, 7, 7] := by
  decide

/-- C6 (amended): every attempt of one fetch_page call reuses the single
User-Agent drawn at the start of the call, and the sleeps preceding the
attempts are, in order: the uniform random delay, a fixed 5-second sleep, a
fixed 24-hour sleep — only the first attempt is preceded by the uniform
draw. -/
theorem C6_identity_and_delay_amended (uaDraw : Nat) (resp : Nat → AttemptResult) :
    (∀ rec ∈ (fetch_page uaDraw resp).2, rec.ua = uaDraw) ∧
    ((fetch_page uaDraw resp).2.map AttemptRec.sleepBefore) =
      [SleepKind.uniformDelay, .fixedSleep 5, .fixedSleep (24 * 60 * 60)].take
        (fetch_page uaDraw resp).2.length := by
  unfold fetch_page
  rcases resp 0 with h0 | _
  · by_cases b0 : isBlankHtml h0
    · rcases resp 1 with h1 | _
      · by_cases b1 : isBlankHtml h1
        · rcases resp 2 with h2 | _
          · by_cases b2 : isBlankHtml h2 <;> simp_all
          · simp_all
        · simp_all
      · simp_all
    · simp_all
  · simp_all

/-! ### Orchestrator invariants for boundary exclusion and ban handling -/

/-- Everything emitted so far is at or below `b`, and the boundary, when
known, is at or below `b` (or the loop already aborted). -/
def BelowInv (b : Nat) (s : BetaState) : Prop :=
  (∀ id ∈ s.written, id ≤ b) ∧ (∀ id ∈ s.counted, id ≤ b) ∧
  (s.aborted = true ∨ s.boundary = none ∨ ∃ l, s.boundary = some l ∧ l ≤ b)

/-- As BelowInv, but the boundary is definitely known (or the loop aborted):
the situation right after a boundary at or below `b` was consumed. -/
def BoundedInv (b : Nat) (s : BetaState) : Prop :=
  (∀ id ∈ s.written, id ≤ b) ∧ (∀ id ∈ s.counted, id ≤ b) ∧
  (s.aborted = true ∨ ∃ l, s.boundary = some l ∧ l ≤ b)

/-- A completion for an id at or below `b` preserves BelowInv. -/
theorem betaStep_BelowInv (b : Nat) (s : BetaState) (t : Nat × TaskResult)
    (hid : t.1 ≤ b) (h : BelowInv b s) : BelowInv b (betaStep s t) := by
  obtain ⟨t1, t2⟩ := t
  obtain ⟨hw, hc, hb⟩ := h
  simp only at hid
  unfold betaStep
  by_cases ha : s.aborted = true
  · rw [if_pos ha]; exact ⟨hw, hc, hb⟩
  · rw [if_neg ha]
    by_cases hcan : cancelledAt s.boundary t1 = true
    · rw [if_pos hcan]; exact ⟨hw, hc, hb⟩
    · rw [if_neg hcan]
      cases t2 with
      | ipBan => exact ⟨hw, hc, Or.inl rfl⟩
      | skipped => exact ⟨hw, hc, hb⟩
      | boundaryReached =>
        refine ⟨hw, hc, ?_⟩
        by_cases hlt : ltBoundary s.boundary t1 = true
        · rw [if_pos hlt]
          exact Or.inr (Or.inr ⟨t1, rfl, hid⟩)
        · rw [if_neg hlt]
          exact hb
      | found =>
        dsimp only
        refine ⟨?_, ?_, hb⟩
        · intro x hx
          rcases List.mem_append.1 hx with h1 | h1
          · exact hw x h1
          · rw [List.mem_singleton] at h1; omega
        · intro x hx
          by_cases hlt : ltBoundary s.boundary t1 = true
          · rw [if_pos hlt] at hx
            rcases List.mem_append.1 hx with h1 | h1
            · exact hc x h1
            · rw [List.mem_singleton] at h1; omega
          · rw [if_neg hlt] at hx
            exact hc x hx

/-- Once the boundary is known to be at or below `b`, any completion at all
preserves BoundedInv: ids above the boundary arrive cancelled. -/
theorem betaStep_BoundedInv (b : Nat) (s : BetaState) (t : Nat × TaskResult)
    (h : BoundedInv b s) : BoundedInv b (betaStep s t) := by
  obtain ⟨t1, t2⟩ := t
  obtain ⟨hw, hc, hb⟩ := h
  unfold betaStep
  by_cases ha : s.aborted = true
  · rw [if_pos ha]; exact ⟨hw, hc, hb⟩
  · rw [if_neg ha]
    rcases hb with hb | ⟨l, hbeq, hlb⟩
    · exact absurd hb ha
    by_cases hcan : cancelledAt s.boundary t1 = true
    · rw [if_pos hcan]; exact ⟨hw, hc, Or.inr ⟨l, hbeq, hlb⟩⟩
    · rw [if_neg hcan]
      have ht1 : t1 ≤ b := by
        rw [hbeq] at hcan
        unfold cancelledAt at hcan
        simp at hcan
        omega
      cases t2 with
      | ipBan => exact ⟨hw, hc, Or.inl rfl⟩
      | skipped => exact ⟨hw, hc, Or.inr ⟨l, hbeq, hlb⟩⟩
      | boundaryReached =>
        refine ⟨hw, hc, ?_⟩
        by_cases hlt : ltBoundary s.boundary t1 = true
        · rw [if_pos hlt]
          exact Or.inr ⟨t1, rfl, ht1⟩
        · rw [if_neg hlt]
          exact Or.inr ⟨l, hbeq, hlb⟩
      | found =>
        dsimp only
        refine ⟨?_, ?_, Or.inr ⟨l, hbeq, hlb⟩⟩
        · intro x hx
          rcases List.mem_append.1 hx with h1 | h1
          · exact hw x h1
          · rw [List.mem_singleton] at h1; omega
        · intro x hx
          by_cases hlt : ltBoundary s.boundary t1 = true
          · rw [if_pos hlt] at hx
            rcases List.mem_append.1 hx with h1 | h1
            · exact hc x h1
            · rw [List.mem_singleton] at h1; omega
          · rw [if_neg hlt] at hx
            exact hc x hx

/-- BelowInv is preserved along any completion order over ids at or below `b`. -/
theorem runBetaFrom_BelowInv (b : Nat) :
    ∀ (order : List (Nat × TaskResult)) (s : BetaState),
      (∀ p ∈ order, p.1 ≤ b) → BelowInv b s → BelowInv b (runBetaFrom s order)
  | [], _, _, h => h
  | t :: rest, s, horder, h =>
      runBetaFrom_BelowInv b rest (betaStep s t)
        (fun p hp => horder p (List.mem_cons_of_mem t hp))
        (betaStep_BelowInv b s t (horder t (List.mem_cons_self t rest)) h)

/-- BoundedInv is preserved along any completion order whatsoever. -/
theorem runBetaFrom_BoundedInv (b : Nat) :
    ∀ (order : List (Nat × TaskResult)) (s : BetaState),
      BoundedInv b s → BoundedInv b (runBetaFrom s order)
  | [], _, h => h
  | t :: rest, s, h =>
      runBetaFrom_BoundedInv b rest (betaStep s t) (betaStep_BoundedInv b s t h)

/-- Consuming the boundary completion for `b` turns BelowInv into BoundedInv. -/
theorem betaStep_boundary_sets (b : Nat) (s : BetaState) (h : BelowInv b s) :
    BoundedInv b (betaStep s (b, .boundaryReached)) := by
  obtain ⟨hw, hc, hb⟩ := h
  unfold betaStep
  by_cases ha : s.aborted = true
  · rw [if_pos ha]; exact ⟨hw, hc, Or.inl ha⟩
  · rw [if_neg ha]
    rcases hb with hb | hb | ⟨l, hbeq, hlb⟩
    · exact absurd hb ha
    · have hcan : ¬cancelledAt s.boundary b = true := by
        rw [hb]; unfold cancelledAt; simp
      rw [if_neg hcan]
      have hlt : ltBoundary s.boundary b = true := by
        rw [hb]; rfl
      rw [if_pos hlt]
      exact ⟨hw, hc, Or.inr ⟨b, rfl, Nat.le_refl b⟩⟩
    · by_cases hcan : cancelledAt s.boundary b = true
      · rw [if_pos hcan]
        exact ⟨hw, hc, Or.inr ⟨l, hbeq, hlb⟩⟩
      · rw [if_neg hcan]
        by_cases hlt : ltBoundary s.boundary b = true
        · rw [if_pos hlt]
          exact ⟨hw, hc, Or.inr ⟨b, rfl, Nat.le_refl b⟩⟩
        · rw [if_neg hlt]
          exact ⟨hw, hc, Or.inr ⟨l, hbeq, hlb⟩⟩

/-- After the loop broke on a ban, further completions change nothing. -/
theorem runBetaFrom_aborted :
    ∀ (order : List (Nat × TaskResult)) (s : BetaState),
      s.aborted = true → runBetaFrom s order = s
  | [], _, _ => rfl
  | t :: rest, s, ha => by
      have h1 : betaStep s t = s := by unfold betaStep; rw [if_pos ha]
      show runBetaFrom (betaStep s t) rest = s
      rw [h1]
      exact runBetaFrom_aborted rest s ha

/-- C3 (corrected, counterexample): the claim that no id greater than the
lowest boundary appears in the final output or counts is false: when task
501 (a valid novel) completes before task 500 reports the boundary, its
record was already written by the worker and it was already counted, and
both survive to the end of the run even though 501 > 500. -/
theorem C3_boundary_counterexample :
    (run_normal_scrape
        [(501, .found), (500, .boundaryReached), (502, .found)]).boundary = some 500 ∧
    (run_normal_scrape
        [(501, .found), (500, .boundaryReached), (502, .found)]).written = [501] ∧
    (run_normal_scrape
        [(501, .found), (500, .boundaryReached), (502, .found)]).counted = [501] ∧
    500 < 501 := by decide

/-- C3 (amended): a completion consumed while the known boundary is below
its id is a cancelled task and changes nothing but the progress counter; and
whenever the boundary completion for `b` is consumed before any task with an
id greater than `b` completes, no id greater than `b` ends up in the final
output or in the final counts. -/
theorem C3_boundary_amended (pre post : List (Nat × TaskResult)) (b : Nat)
    (hpre : ∀ p ∈ pre, p.1 ≤ b) :
    (∀ id ∈ (run_normal_scrape (pre ++ (b, .boundaryReached) :: post)).written, id ≤ b) ∧
    (∀ id ∈ (run_normal_scrape (pre ++ (b, .boundaryReached) :: post)).counted, id ≤ b) ∧
    (∀ (s : BetaState) (id : Nat) (r : TaskResult) (l : Nat),
      s.aborted = false → s.boundary = some l → l < id →
      betaStep s (id, r) = { s with completed := s.completed + 1 }) := by
  have h0 : BelowInv b ({} : BetaState) :=
    ⟨fun x hx => absurd hx (List.not_mem_nil x),
     fun x hx => absurd hx (List.not_mem_nil x),
     Or.inr (Or.inl rfl)⟩
  have h1 : BelowInv b (runBetaFrom {} pre) := runBetaFrom_BelowInv b pre {} hpre h0
  have h2 : BoundedInv b (betaStep (runBetaFrom {} pre) (b, .boundaryReached)) :=
    betaStep_boundary_sets b _ h1
  have h3 : BoundedInv b
      (runBetaFrom (betaStep (runBetaFrom {} pre) (b, .boundaryReached)) post) :=
    runBetaFrom_BoundedInv b post _ h2
  have heq : run_normal_scrape (pre ++ (b, .boundaryReached) :: post) =
      runBetaFrom (betaStep (runBetaFrom {} pre) (b, .boundaryReached)) post := by
    unfold run_normal_scrape runBetaFrom
    rw [List.foldl_append, List.foldl_cons]
  rw [heq]
  refine ⟨h3.1, h3.2.1, ?_⟩
  intro s id r l ha hbd hlid
  unfold betaStep
  rw [if_neg (by rw [ha]; exact Bool.false_ne_true)]
  rw [if_pos (by rw [hbd]; unfold cancelledAt; simp [hlid])]

/-- Witness for C3_boundary_amended on a concrete run. -/
theorem C3_boundary_witness :
    (∀ p ∈ [((400 : Nat), TaskResult.found)], p.1 ≤ 500) ∧
    (∀ id ∈ (run_normal_scrape
        ([(400, .found)] ++ (500, .boundaryReached) :: [(501, .found)])).written,
      id ≤ 500) :=
  ⟨by decide,
   (C3_boundary_amended [(400, .found)] [(501, .found)] 500 (by decide)).1⟩

/-- C5 (corrected, counterexample): in the legacy scraper's completion loop
the claim is false: after a task raises the ban-suspected exception the loop
merely logs it and keeps consuming work, so a later valid task is still
written and counted. -/
theorem C5_ban_counterexample :
    (legacy_main_loop [(1, .ipBan), (2, .found)]).written = [2] ∧
    (legacy_main_loop [(1, .ipBan), (2, .found)]).counted = [2] ∧
    (legacy_main_loop [(1, .ipBan)]).written = [] := by decide

/-- C5 (amended): in the beta orchestrator, once a non-cancelled task
delivers the ban-suspected outcome, the loop breaks: the final state is
exactly the pre-ban state with the aborted flag set — no further completion
is consumed — and the records written before the ban are kept unchanged.
The legacy orchestrator instead logs the ban and continues. -/
theorem C5_ban_amended (pre rest : List (Nat × TaskResult)) (i : Nat)
    (hnc : cancelledAt (run_normal_scrape pre).boundary i = false) :
    run_normal_scrape (pre ++ (i, .ipBan) :: rest) =
      markAborted (run_normal_scrape pre) ∧
    (run_normal_scrape (pre ++ (i, .ipBan) :: rest)).written =
      (run_normal_scrape pre).written := by
  have heq : run_normal_scrape (pre ++ (i, .ipBan) :: rest) =
      runBetaFrom (betaStep (run_normal_scrape pre) (i, .ipBan)) rest := by
    unfold run_normal_scrape runBetaFrom
    rw [List.foldl_append, List.foldl_cons]
  have hstep : betaStep (run_normal_scrape pre) (i, .ipBan) =
      markAborted (run_normal_scrape pre) := by
    unfold betaStep markAborted
    by_cases ha : (run_normal_scrape pre).aborted = true
    · rw [if_pos ha]
      cases hs : run_normal_scrape pre
      rw [hs] at ha
      simp only at ha
      rw [ha]
    · rw [if_neg ha]
      rw [if_neg (by rw [hnc]; exact Bool.false_ne_true)]
  have hfin : run_normal_scrape (pre ++ (i, .ipBan) :: rest) =
      markAborted (run_normal_scrape pre) := by
    rw [heq, hstep]
    exact runBetaFrom_aborted rest _ rfl
  exact ⟨hfin, by rw [hfin]; rfl⟩

/-- Witness for C5_ban_amended on a concrete run. -/
theorem C5_ban_witness :
    cancelledAt (run_normal_scrape [(1, .found)]).boundary 2 = false ∧
    run_normal_scrape ([(1, .found)] ++ (2, .ipBan) :: [(3, .found)]) =
      markAborted (run_normal_scrape [(1, .found)]) :=
  ⟨by decide, (C5_ban_amended [(1, .found)] [(3, .found)] 2 (by decide)).1⟩

/-- The success flag computed by the rescrape loop's for-else is exactly
"no ban and no unhandled fault in the consumed events". -/
theorem rescrapeLoop_snd :
    ∀ events : List RescrapeEvent, (rescrapeLoop events).2 = noInterrupt events
  | [] => rfl
  | .fault :: es => by simp [rescrapeLoop, noInterrupt]
  | .task id .ipBan :: es => by simp [rescrapeLoop, noInterrupt]
  | .task id .found :: es => by
      simp only [rescrapeLoop, noInterrupt, List.all_cons, Bool.true_and]
      exact rescrapeLoop_snd es
  | .task id .skipped :: es => by
      simp only [rescrapeLoop, noInterrupt, List.all_cons, Bool.true_and]
      exact rescrapeLoop_snd es
  | .task id .boundaryReached :: es => by
      simp only [rescrapeLoop, noInterrupt, List.all_cons, Bool.true_and]
      exact rescrapeLoop_snd es

/-- C4 (confirmed): with a non-empty rescrape list, the original metadata
file is replaced by the temp file exactly when the completion loop runs to
full, uninterrupted completion; on any interruption (ban or unhandled
fault) the original file's contents are unchanged; the temp file never
survives the run; and on success the original holds exactly the re-fetched
records, which were accumulated only in the temp file. -/
theorem C4_atomic_rescrape (orig ids : List Nat) (events : List RescrapeEvent)
    (hids : ids.isEmpty = false) :
    ((run_rescrape orig ids events).replaced = true ↔ noInterrupt events = true) ∧
    (noInterrupt events = false → (run_rescrape orig ids events).original = orig) ∧
    (run_rescrape orig ids events).tempRemains = false ∧
    (noInterrupt events = true →
      (run_rescrape orig ids events).original = (rescrapeLoop events).1) := by
  have hsnd := rescrapeLoop_snd events
  unfold run_rescrape
  rw [hids]
  rw [if_neg Bool.false_ne_true]
  by_cases h2 : (rescrapeLoop events).2 = true
  · rw [if_pos h2]
    rw [hsnd] at h2
    refine ⟨⟨fun _ => h2, fun _ => rfl⟩, fun hf => absurd h2 (by rw [hf]; exact Bool.false_ne_true), rfl, fun _ => rfl⟩
  · rw [if_neg h2]
    rw [hsnd] at h2
    have h2f : noInterrupt events = false := Bool.not_eq_true _ ▸ Bool.eq_false_iff.mpr h2
    refine ⟨⟨fun hr => absurd hr Bool.false_ne_true, fun ht => absurd ht h2⟩,
      fun _ => rfl, rfl, fun ht => absurd ht h2⟩

/-- Witness for C4_atomic_rescrape on concrete runs: a completed one-task
rescrape replaces the file, an interrupted one leaves it untouched. -/
theorem C4_atomic_rescrape_witness :
    ([(1 : Nat)].isEmpty = false) ∧
    ((run_rescrape [9] [1] [.task 1 .found]).replaced = true ↔
      noInterrupt [.task 1 .found] = true) ∧
    (noInterrupt [RescrapeEvent.task 1 .ipBan] = false →
      (run_rescrape [9] [1] [.task 1 .ipBan]).original = [9]) :=
  ⟨rfl, (C4_atomic_rescrape [9] [1] [.task 1 .found] rfl).1,
   (C4_atomic_rescrape [9] [1] [.task 1 .ipBan] rfl).2.1⟩

/-- C7 (corrected, counterexample): an unparseable page (parse_novel_data
returned None) does not get its id added to the forbidden set nor appended
to forbidden.txt, refuting the claim that unparseable pages are treated
like deleted/access-denied ones; the task ends as skipped_no_data. -/
theorem C7_forbidden_counterexample :
    ("000123" ∈ (process_novel "000123" .noData false true []).forbiddenSet → False) ∧
    (process_novel "000123" .noData false true []).forbiddenFileAppends = [] ∧
    (process_novel "000123" .noData false true []).status = .skippedNoData := by
  refine ⟨?_, rfl, rfl⟩
  intro h
  simp [process_novel] at h

/-- C7 (amended): with the policy to re-scrape deleted/access-denied novels
disabled, an id whose page classifies as deleted or access-denied is added
to the forbidden set and appended to the forbidden file (once, no duplicate
append if already present), no data line is written and the task reports
skipped_forbidden; unparseable pages leave the forbidden state untouched;
and any id in the forbidden list is excluded from the candidate tasks of a
later run, hence skipped without a network round-trip. -/
theorem C7_forbidden_amended (id : String) (parse : ParseResult)
    (scrapeMetadata : Bool) (forbidden : List String) :
    ((parse = .deletedNovel ∨ parse = .accessDeniedNovel) →
      (process_novel id parse false scrapeMetadata forbidden).status = .skippedForbidden ∧
      id ∈ (process_novel id parse false scrapeMetadata forbidden).forbiddenSet ∧
      (process_novel id parse false scrapeMetadata forbidden).forbiddenSet =
        (if id ∈ forbidden then forbidden else forbidden ++ [id]) ∧
      (process_novel id parse false scrapeMetadata forbidden).forbiddenFileAppends =
        (if id ∈ forbidden then [] else [id]) ∧
      (process_novel id parse false scrapeMetadata forbidden).dataWritten = false) ∧
    (parse = .noData →
      (process_novel id parse false scrapeMetadata forbidden).forbiddenSet = forbidden ∧
      (process_novel id parse false scrapeMetadata forbidden).forbiddenFileAppends = []) ∧
    (∀ (startId endId : Nat) (indexed forbiddenIds : List Nat) (i : Nat),
      i ∈ forbiddenIds → i ∉ tasksToCreate startId endId indexed forbiddenIds) := by
  refine ⟨?_, ?_, ?_⟩
  · rintro (rfl | rfl) <;>
    · by_cases hm : id ∈ forbidden <;>
        simp [process_novel, hm]
  · rintro rfl
    exact ⟨rfl, rfl⟩
  · intro startId endId indexed forbiddenIds i hi hmem
    rw [tasksToCreate, List.mem_filter] at hmem
    have := hmem.2
    simp at this
    exact this.2 hi

/-- Witness for C7_forbidden_amended: a deleted novel id gets recorded. -/
theorem C7_forbidden_witness :
    (ParseResult.deletedNovel = ParseResult.deletedNovel ∨
      ParseResult.deletedNovel = ParseResult.accessDeniedNovel) ∧
    "000005" ∈ (process_novel "000005" .deletedNovel false true []).forbiddenSet :=
  ⟨Or.inl rfl,
   ((C7_forbidden_amended "000005" .deletedNovel true []).1 (Or.inl rfl)).2.1⟩

/-- Each worker writes its data line at most once: over any completion order
the ids written by the beta loop form a sublist of the order's ids. -/
theorem runBetaFrom_written_sublist :
    ∀ (order : List (Nat × TaskResult)) (s : BetaState),
      ∃ w, (runBetaFrom s order).written = s.written ++ w ∧
        List.Sublist w (order.map Prod.fst)
  | [], s => ⟨[], by simp [runBetaFrom], List.nil_sublist _⟩
  | t :: rest, s => by
    obtain ⟨w, hw, hsub⟩ := runBetaFrom_written_sublist rest (betaStep s t)
    have hcase : (betaStep s t).written = s.written ∨
        (betaStep s t).written = s.written ++ [t.1] := by
      unfold betaStep
      by_cases ha : s.aborted = true
      · rw [if_pos ha]; exact Or.inl rfl
      · rw [if_neg ha]
        by_cases hcan : cancelledAt s.boundary t.1 = true
        · rw [if_pos hcan]; exact Or.inl rfl
        · rw [if_neg hcan]
          obtain ⟨t1, t2⟩ := t
          cases t2
          · exact Or.inr rfl
          · exact Or.inl rfl
          · exact Or.inl rfl
          · exact Or.inl rfl
    rcases hcase with hc | hc
    · refine ⟨w, ?_, List.Sublist.cons t.1 hsub⟩
      show (runBetaFrom (betaStep s t) rest).written = s.written ++ w
      rw [hw, hc]
    · refine ⟨t.1 :: w, ?_, List.Sublist.cons₂ t.1 hsub⟩
      show (runBetaFrom (betaStep s t) rest).written = s.written ++ (t.1 :: w)
      rw [hw, hc, List.append_assoc]
      rfl

/-- The candidate list built from a range by filtering indexed and forbidden
ids has no duplicates. -/
theorem tasksToCreate_nodup (startId endId : Nat) (indexed forbidden : List Nat) :
    (tasksToCreate startId endId indexed forbidden).Nodup :=
  ((List.nodup_range (endId + 1 - startId)).map
    (fun a b hab => by omega)).filter _

/-- C8 (confirmed): in resume/append mode the candidate list excludes every
id parsed from the existing file's well-formed lines and contains no
duplicates, and over any completion order drawn from it the final output —
prior ids plus the ids written this run — contains each id at most once. -/
theorem C8_resume_dedup (startId endId : Nat) (lines : List Line)
    (forbidden : List Nat) (order : List (Nat × TaskResult))
    (horder : ∀ id ∈ order.map Prod.fst,
        id ∈ tasksToCreate startId endId (indexedIdsOf lines) forbidden)
    (hnodup : (order.map Prod.fst).Nodup)
    (hfile : (indexedIdsOf lines).Nodup) :
    (tasksToCreate startId endId (indexedIdsOf lines) forbidden).Nodup ∧
    (indexedIdsOf lines ++ (run_normal_scrape order).written).Nodup := by
  refine ⟨tasksToCreate_nodup _ _ _ _, ?_⟩
  obtain ⟨w, hw, hsub⟩ := runBetaFrom_written_sublist order {}
  have hw0 : (run_normal_scrape order).written = w := by
    unfold run_normal_scrape
    rw [hw]
    rfl
  rw [hw0, List.nodup_append]
  refine ⟨hfile, List.Nodup.sublist hsub hnodup, ?_⟩
  intro a ha hb
  have hmem := horder a (hsub.subset hb)
  rw [tasksToCreate, List.mem_filter] at hmem
  have h2 := hmem.2
  simp at h2
  exact h2.1 ha

/-- Witness for C8_resume_dedup: resuming over 0..2 with id 0 already in the
file creates tasks 1 and 2 only, and the final output has no duplicate. -/
theorem C8_resume_dedup_witness :
    (∀ id ∈ ([((1 : Nat), TaskResult.found), (2, TaskResult.found)].map Prod.fst),
      id ∈ tasksToCreate 0 2 (indexedIdsOf [Line.wellFormed 0]) []) ∧
    (indexedIdsOf [Line.wellFormed 0] ++
      (run_normal_scrape [(1, .found), (2, .found)]).written).Nodup :=
  ⟨by decide,
   (C8_resume_dedup 0 2 [Line.wellFormed 0] [] [(1, .found), (2, .found)]
      (by decide) (by decide) (by decide)).2⟩

/-- The accumulator never decreases along the get_last_scraped_id fold. -/
theorem le_foldl_maxIdStep :
    ∀ (lines : List Line) (acc : Int), acc ≤ List.foldl maxIdStep acc lines
  | [], acc => le_refl acc
  | l :: ls, acc => by
    have h1 : acc ≤ maxIdStep acc l := by
      unfold maxIdStep
      cases l with
      | wellFormed id => split <;> omega
      | malformed => exact le_refl acc
    exact le_trans h1 (le_foldl_maxIdStep ls (maxIdStep acc l))

/-- Every id parsed from a well-formed line bounds the fold from below. -/
theorem mem_le_foldl_maxIdStep :
    ∀ (lines : List Line) (acc : Int) (id : Nat),
      id ∈ indexedIdsOf lines → (id : Int) ≤ List.foldl maxIdStep acc lines
  | [], _, id, hmem => absurd hmem (by simp [indexedIdsOf])
  | l :: ls, acc, id, hmem => by
    cases l with
    | malformed =>
      have h : id ∈ indexedIdsOf ls := by simpa [indexedIdsOf] using hmem
      exact mem_le_foldl_maxIdStep ls _ id h
    | wellFormed j =>
      have hmem' : id = j ∨ id ∈ indexedIdsOf ls := by
        simpa [indexedIdsOf] using hmem
      rcases hmem' with rfl | h
      · have h1 : (id : Int) ≤ maxIdStep acc (.wellFormed id) := by
          show (id : Int) ≤ if (id : Int) > acc then (id : Int) else acc
          split <;> omega
        exact le_trans h1 (le_foldl_maxIdStep ls _)
      · exact mem_le_foldl_maxIdStep ls _ id h

/-- The fold either returns the initial accumulator or attains a parsed id. -/
theorem foldl_maxIdStep_acc_or_mem :
    ∀ (lines : List Line) (acc : Int),
      List.foldl maxIdStep acc lines = acc ∨
      ∃ id ∈ indexedIdsOf lines, List.foldl maxIdStep acc lines = (id : Int)
  | [], _ => Or.inl rfl
  | l :: ls, acc => by
    cases l with
    | malformed =>
      rcases foldl_maxIdStep_acc_or_mem ls acc with h | ⟨id, hid, heq⟩
      · exact Or.inl h
      · exact Or.inr ⟨id, by simpa [indexedIdsOf] using hid, heq⟩
    | wellFormed j =>
      rcases foldl_maxIdStep_acc_or_mem ls (maxIdStep acc (.wellFormed j))
        with h | ⟨id, hid, heq⟩
      · by_cases hj : (j : Int) > acc
        · refine Or.inr ⟨j, by simp [indexedIdsOf], ?_⟩
          show List.foldl maxIdStep (maxIdStep acc (.wellFormed j)) ls = (j : Int)
          rw [h]
          show (if (j : Int) > acc then (j : Int) else acc) = (j : Int)
          rw [if_pos hj]
        · refine Or.inl ?_
          show List.foldl maxIdStep (maxIdStep acc (.wellFormed j)) ls = acc
          rw [h]
          show (if (j : Int) > acc then (j : Int) else acc) = acc
          rw [if_neg hj]
      · refine Or.inr ⟨id, ?_, heq⟩
        simp only [indexedIdsOf, List.filterMap_cons]
        exact List.mem_cons_of_mem j hid

/-- C9 (confirmed): get_last_scraped_id returns -1 for a missing file, skips
malformed lines, returns -1 when no line parses, and otherwise returns the
numerically largest parsed id (an upper bound that is attained); the session
then offers to continue from that maximum plus one, and no id at or below
the maximum — in particular no unscraped id lying in a gap — is in the
candidate list of the continued run. -/
theorem C9_resume_point (lines : List Line) :
    get_last_scraped_id none = -1 ∧
    (∀ ls : List Line, get_last_scraped_id (some (Line.malformed :: ls)) =
      get_last_scraped_id (some ls)) ∧
    (indexedIdsOf lines = [] → get_last_scraped_id (some lines) = -1) ∧
    (∀ id ∈ indexedIdsOf lines, (id : Int) ≤ get_last_scraped_id (some lines)) ∧
    (get_last_scraped_id (some lines) = -1 ∨
      ∃ id ∈ indexedIdsOf lines, get_last_scraped_id (some lines) = (id : Int)) ∧
    (get_last_scraped_id (some lines) ≠ -1 →
      configureContinueStart (some lines) =
        some (get_last_scraped_id (some lines) + 1)) ∧
    (∀ g endId : Nat, (g : Int) ≤ get_last_scraped_id (some lines) →
      g ∉ tasksToCreate ((get_last_scraped_id (some lines)).toNat + 1) endId [] []) := by
  refine ⟨rfl, fun ls => rfl, ?_, ?_, ?_, ?_, ?_⟩
  · intro hempty
    rcases foldl_maxIdStep_acc_or_mem lines (-1) with h | ⟨id, hid, _⟩
    · exact h
    · rw [hempty] at hid
      exact absurd hid (List.not_mem_nil id)
  · exact fun id hid => mem_le_foldl_maxIdStep lines (-1) id hid
  · exact foldl_maxIdStep_acc_or_mem lines (-1)
  · intro hne
    unfold configureContinueStart
    rw [if_pos hne]
  · intro g endId hg hmem
    rw [tasksToCreate, List.mem_filter, List.mem_map] at hmem
    obtain ⟨⟨k, _, hkg⟩, _⟩ := hmem
    have hlast : (g : Int) ≤ get_last_scraped_id (some lines) := hg
    omega

/-- Witness for C9_resume_point on a file whose largest id (7) is not last. -/
theorem C9_resume_point_witness :
    (3 ∈ indexedIdsOf
      [Line.wellFormed 3, .malformed, .wellFormed 7, .wellFormed 5]) ∧
    ((3 : Int) ≤ get_last_scraped_id
      (some [Line.wellFormed 3, .malformed, .wellFormed 7, .wellFormed 5])) :=
  ⟨by decide,
   (C9_resume_point
      [Line.wellFormed 3, .malformed, .wellFormed 7, .wellFormed 5]).2.2.2.1
      3 (by decide)⟩

/-- When min_likes is positive, a record without a numeric 'total_likes'
field fails the minimum-likes guard, so it is excluded. -/
theorem likes_filter_excludes (p : FilterParams) (r : JRecord)
    (hml : 0 < p.min_likes) (hnl : jnumField r "total_likes" = none) :
    includedInAverage p r = false := by
  have hfalse : decide (p.min_likes ≤ 0) = false := by
    simp only [decide_eq_false_iff_not]
    omega
  unfold includedInAverage passesFilters
  rw [hnl, hfalse]
  simp

/-- The record dict assembled by the beta scraper has no 'total_likes' key:
likes are stored under 'like_count'. -/
theorem parse_novel_data_no_total_likes (id title : String)
    (synopsis author : Option String) (tags : List String) (isAdult : Bool)
    (pubStatus : String) (coverUrl coverMime : Option String)
    (likeCount chapterCount : Option Int) :
    jlookup (parse_novel_data id title synopsis author tags isAdult pubStatus
      coverUrl coverMime likeCount chapterCount) "total_likes" = none := by
  simp [jlookup, parse_novel_data, List.find?]

/-- C10 (confirmed): whenever min_likes > 0, calculate_average_chapters
excludes every record lacking a numeric 'total_likes' field from the
average and from the filtered-results list; and since the scraper's records
store likes under 'like_count' and carry no 'total_likes' key, every
scraper-produced record is excluded when min_likes > 0. -/
theorem C10_analytics_total_likes (p : FilterParams) (hml : 0 < p.min_likes) :
    (∀ r : JRecord, jnumField r "total_likes" = none →
      includedInAverage p r = false ∧
      ∀ lines : List (Option JRecord), r ∉ filteredRecords p lines) ∧
    (∀ (id title : String) (synopsis author : Option String)
        (tags : List String) (isAdult : Bool) (pubStatus : String)
        (coverUrl coverMime : Option String) (likeCount chapterCount : Option Int),
      jlookup (parse_novel_data id title synopsis author tags isAdult pubStatus
        coverUrl coverMime likeCount chapterCount) "total_likes" = none ∧
      includedInAverage p (parse_novel_data id title synopsis author tags
        isAdult pubStatus coverUrl coverMime likeCount chapterCount) = false) := by
  have hexcl : ∀ r : JRecord, jnumField r "total_likes" = none →
      includedInAverage p r = false :=
    fun r hr => likes_filter_excludes p r hml hr
  refine ⟨fun r hr => ⟨hexcl r hr, ?_⟩, ?_⟩
  · intro lines hmem
    rw [filteredRecords, List.mem_filter] at hmem
    rw [hexcl r hr] at hmem
    exact absurd hmem.2 Bool.false_ne_true
  · intro id title synopsis author tags isAdult pubStatus coverUrl coverMime
      likeCount chapterCount
    have hkey := parse_novel_data_no_total_likes id title synopsis author tags
      isAdult pubStatus coverUrl coverMime likeCount chapterCount
    have hnum : jnumField (parse_novel_data id title synopsis author tags
        isAdult pubStatus coverUrl coverMime likeCount chapterCount)
        "total_likes" = none := by
      unfold jnumField
      rw [hkey]
    exact ⟨hkey, hexcl _ hnum⟩

/-- Witness for C10_analytics_total_likes: with min_likes = 5, a record
produced under the scraper's key scheme is excluded from the average. -/
theorem C10_analytics_witness :
    (0 : Int) < 5 ∧
    includedInAverage ⟨[], [], false, 5, 0, "all"⟩
      [("like_count", .jnum 100), ("chapter_count", .jnum 12)] = false :=
  ⟨by norm_num,
   ((C10_analytics_total_likes ⟨[], [], false, 5, 0, "all"⟩ (by norm_num)).1
      [("like_count", .jnum 100), ("chapter_count", .jnum 12)] (by decide)).1⟩

end NovelpiaScraper
